import Mathlib

/-!
Verification of the POS-Launcher update/backup subsystem.

This file is a shallow embedding, in Lean 4, of the parts of the
repository that the specification talks about:

* `src/launcher/updater.py` — version parsing and comparison
  (`Updater._parse_version`, `Updater._is_newer_version`), release asset
  resolution (`Updater._find_asset`), the update-check
  (`Updater.check_for_updates`), the download step
  (`Updater.download_update`, `Updater._verify_checksum`) and the install
  step (`Updater.apply_update`).
* `src/launcher/backup_manager.py` — `BackupManager.create_backup` and
  `BackupManager.downgrade` over a directory-tree model.
* `src/launcher/resources/utils.py` — `verify_checksum` over an abstract
  file system, and the process guard oracles.
* `src/launcher/resources/version.py` — the strict `parse_version`.

Modelling conventions:

* String manipulation is done on `List Char` (Lean string primitives such
  as `String.splitOn` do not reduce well in the kernel); a Python string
  is `String`/`List Char`, byte strings are `List Nat`.
* The SHA-256 digest is a Python library routine (`hashlib`), so it
  enters the model as an abstract function parameter
  `h : List Nat → String`; statements quantify over it.
* The on-disk file system for the download path is a function
  `String → Option (List Nat)` (`none` = absent or unreadable, matching
  the `FileNotFoundError`/`IOError` handler in `verify_checksum`).
* OS-fallible primitives (`safe_rename`, `safe_delete`, process kill)
  return a success boolean in the source; the model draws each outcome
  from an explicit environment record, and each operation returns its
  error (or `none` for success) together with the resulting state, since
  a raised Python exception still leaves its file-system effects behind.
-/

/-! ## Character-level string helpers (models of the Python primitives) -/

/-- Python `s.strip()` on a character list: drop whitespace at both ends. -/
def pyStrip (cs : List Char) : List Char :=
  ((cs.dropWhile Char.isWhitespace).reverse.dropWhile Char.isWhitespace).reverse

/-- Python `s.split(sep)` for a one-character separator, keeping empty
pieces, so `splitOnChar '.' [] = [[]]` just as `"".split(".") == [""]`. -/
def splitOnChar (sep : Char) : List Char → List (List Char)
  | [] => [[]]
  | c :: rest =>
    let r := splitOnChar sep rest
    if c = sep then [] :: r
    else
      match r with
      | h :: t => (c :: h) :: t
      | [] => [[c]]

/-- Python `str.lower()` restricted to ASCII case folding. -/
def pyLower (s : String) : String :=
  (s.toList.map Char.toLower).asString

/-- Python `pat in hay` — substring containment on character lists. -/
def containsSub : List Char → List Char → Bool
  | hay, pat =>
    if pat.isPrefixOf hay then true
    else
      match hay with
      | [] => false
      | _ :: t => containsSub t pat

/-- Python `pat in hay` on strings. -/
def strContains (hay pat : String) : Bool :=
  containsSub hay.toList pat.toList

/-! ## Python `int()` on the fragment of strings the version code feeds it

`int(s)` accepts optional surrounding whitespace, one optional sign and a
nonempty run of decimal digits.  (Underscore digit grouping and non-ASCII
digits, which version strings never contain, are not modelled.)
Failure, a `ValueError`, is `none`. -/

def digitsToNat (ds : List Char) : Nat :=
  ds.foldl (fun a d => a * 10 + (d.toNat - 48)) 0

def pyInt (s : List Char) : Option Int :=
  match pyStrip s with
  | [] => none
  | c :: rest =>
    let signed : Bool × List Char :=
      if c = '-' then (true, rest)
      else if c = '+' then (false, rest)
      else (false, c :: rest)
    if signed.2 ≠ [] ∧ signed.2.all Char.isDigit then
      some (if signed.1 then -(digitsToNat signed.2 : Int) else (digitsToNat signed.2 : Int))
    else none

/-- Python tuple comparison `a < b` on a triple of ints (lexicographic). -/
def tripleLt (a b : Int × Int × Int) : Bool :=
  decide (a.1 < b.1) ||
    (a.1 == b.1 && (decide (a.2.1 < b.2.1) ||
      (a.2.1 == b.2.1 && decide (a.2.2 < b.2.2))))

namespace Updater

/-- `Updater._parse_version` (updater.py lines 287-310): strip surrounding
whitespace, strip every leading `v`/`V` (`lstrip('vV')`), split on `.`,
pad missing trailing components with `"0"` up to three, convert the first
three components with `int()`.  A `ValueError` (empty input string, or a
non-integer component among the first three) is `none`. -/
def parse_version (version_str : String) : Option (Int × Int × Int) :=
  if version_str = "" then none
  else
    let clean := (pyStrip version_str.toList).dropWhile (fun c => c == 'v' || c == 'V')
    let parts := splitOnChar '.' clean
    let parts := if parts.length < 3 then parts ++ List.replicate (3 - parts.length) ['0'] else parts
    match (parts.take 3).mapM pyInt with
    | some [a, b, c] => some (a, b, c)
    | _ => none

/-- `Updater._is_newer_version` (updater.py lines 272-285): with no
installed version, any candidate is reported newer; otherwise parse both
and compare, any parse failure giving `false`. -/
def is_newer_version (current_version : Option String) (other_version : String) : Bool :=
  match current_version with
  | none => true
  | some cur =>
    match parse_version cur, parse_version other_version with
    | some c, some o => tripleLt c o
    | _, _ => false

end Updater

namespace Resources

/-- `parse_version` from resources/version.py (lines 109-134): strip one
leading `v`/`V`, split on `.`, require exactly three components, convert
each with `int()`. -/
def parse_version (version_str : String) : Option (Int × Int × Int) :=
  let cs := version_str.toList
  let v := match cs with
           | c :: rest => if c = 'v' ∨ c = 'V' then rest else cs
           | [] => cs
  let parts := splitOnChar '.' v
  if parts.length ≠ 3 then none
  else
    match parts.mapM pyInt with
    | some [a, b, c] => some (a, b, c)
    | _ => none

end Resources

/-! ## Configuration constants (resources/config.py, Windows target)

The launcher is Windows-only in practice (`get_pos_base_dir_windows` uses
`ctypes.windll`), so `APP_EXECUTABLE` takes its `sys.platform == "win32"`
value. -/

def APP_EXECUTABLE_NAME : String := "POS"

def APP_EXECUTABLE : String := APP_EXECUTABLE_NAME ++ ".exe"

def ASSET_NAME_PATTERN : String := APP_EXECUTABLE_NAME ++ "-Windows"

def GITHUB_API_BASE : String := "https://api.github.com"

def GITHUB_OWNER : String := "Cesar073"

def GITHUB_REPO : String := "POS-Releases"

/-! ## Release assets and `Updater._find_asset` -/

/-- The fields of a GitHub release asset object that
`check_for_updates` / `_find_asset` read.  `id := none` models a JSON
object without an `id` key (`asset.get("id")` returning `None`). -/
structure Asset where
  id : Option Int
  name : String
  size : Int
  browser_download_url : String
deriving DecidableEq, Repr

namespace Updater

/-- The pattern list of `Updater._find_asset` (updater.py lines 244-250),
in priority order. -/
def patterns : List String :=
  [ASSET_NAME_PATTERN ++ ".zip", ASSET_NAME_PATTERN ++ ".exe",
   APP_EXECUTABLE, ASSET_NAME_PATTERN]

/-- The per-asset scan of `_find_asset` (updater.py lines 253-264): for
each asset in turn, first try an exact name match against every pattern,
then a substring match against every pattern; return the first asset for
which either succeeds. -/
def find_matching : List Asset → Option Asset
  | [] => none
  | a :: rest =>
    if patterns.any (fun p => a.name == p) then some a
    else if patterns.any (fun p => strContains a.name p) then some a
    else find_matching rest

/-- `Updater._find_asset` (updater.py lines 240-270): the scan above,
falling back to the first asset of the list when nothing matched. -/
def find_asset (assets : List Asset) : Option Asset :=
  match find_matching assets with
  | some a => some a
  | none => assets.head?

end Updater

/-! ## Checksums (resources/utils.py lines 25-67)

The file system is abstract: `fs : String → Option (List Nat)` maps a
path to the byte content of a readable file there, `none` meaning the
open/read fails (`FileNotFoundError` / `IOError`).  `h` is the abstract
SHA-256 hex digest. -/

/-- `calculate_sha256` (utils.py lines 25-49): digest of the file bytes,
propagating the read failure. -/
def calculate_sha256 (h : List Nat → String) (fs : String → Option (List Nat))
    (file_path : String) : Option String :=
  (fs file_path).map h

/-- `verify_checksum` (utils.py lines 52-67): compare the actual digest
with the expected one case-insensitively; a read failure is caught and
returns `false` (the function is total — it never propagates an error). -/
def verify_checksum (h : List Nat → String) (fs : String → Option (List Nat))
    (file_path : String) (expected_hash : String) : Bool :=
  match calculate_sha256 h fs file_path with
  | some actual => pyLower actual == pyLower expected_hash
  | none => false

/-- `algorithm, expected_hash = checksum_str.split(":", 1)` with the
no-colon default of `Updater._verify_checksum` (updater.py lines
432-439): no colon means the whole string is the hash and the algorithm
defaults to `"sha256"`. -/
def splitChecksum (checksum_str : String) : String × String :=
  let cs := checksum_str.toList
  if cs.any (fun c => c == ':') then
    let pre := cs.takeWhile (fun c => c ≠ ':')
    (pre.asString, (cs.drop (pre.length + 1)).asString)
  else ("sha256", checksum_str)

namespace Updater

/-- `Updater._verify_checksum` (updater.py lines 421-448): split the
declared checksum into algorithm and hex, accept anything whose algorithm
is not (case-insensitively) `sha256` without verifying, and otherwise
defer to `verify_checksum`.  The `except Exception: return True` handler
is unreachable in the model because `verify_checksum` is total. -/
def verify_checksum_str (h : List Nat → String) (fs : String → Option (List Nat))
    (file_path : String) (checksum_str : String) : Bool :=
  let split := splitChecksum checksum_str
  if pyLower split.1 != "sha256" then true
  else verify_checksum h fs file_path split.2

end Updater

/-! ## `UpdateInfo` and the check / download steps (updater.py) -/

/-- The `UpdateInfo` dataclass (updater.py lines 66-76).  `id` is
`Option` because `check_for_updates` stores `asset.get("id")` there,
which can be `None`. -/
structure UpdateInfo where
  id : Option Int
  name : String
  version : String
  download_url : String
  changelog : String
  release_date : String
  file_size : Int
  checksum : Option String
deriving DecidableEq, Repr

/-- The fields of the GitHub latest-release JSON that
`check_for_updates` reads. -/
structure ReleaseData where
  tag_name : String
  assets : List Asset
  body : String
  published_at : String
deriving DecidableEq, Repr

/-- The error taxonomy of `UpdateError` raises in updater.py, one
constructor per distinct raise site that the model reaches. -/
inductive ApplyExc where
  | installRename
  | extractError
deriving DecidableEq, Repr

inductive UpdErr where
  | noTagName
  | noAssets
  | noCompatibleAsset
  | noDownloadUrl
  | downloadFailed
  | checksumMismatch
  | noDownloadedFile
  | noUpdateInfo
  | processBusy
  | backupCreateFailed
  | applyFailed (inner : ApplyExc)
deriving DecidableEq, Repr

/-- The download URL built from an asset id (updater.py line 202). -/
def assetApiUrl (assetId : Int) : String :=
  GITHUB_API_BASE ++ "/repos/" ++ GITHUB_OWNER ++ "/" ++ GITHUB_REPO ++
    "/releases/assets/" ++ toString assetId

/-- Python truthiness of `asset.get("id")`: present and nonzero. -/
def assetIdTruthy (id : Option Int) : Bool :=
  match id with
  | some i => i != 0
  | none => false

namespace Updater

/-- `Updater.check_for_updates` (updater.py lines 154-238), from the
point where the latest-release JSON has been fetched and decoded (the
HTTP layer is outside the model): read `tag_name`, strip the leading
`v`/`V`s, compare with `_is_newer_version`, resolve the asset, prefer the
API asset-id URL over `browser_download_url`, and build an `UpdateInfo`
whose `checksum` is always `None` (line 235).  `.ok none` is the
up-to-date return.  The ISO-date reformatting of `published_at` (lines
215-222, display only) is not modelled. -/
def check_for_updates (current_version : Option String) (release : ReleaseData) :
    Except UpdErr (Option UpdateInfo) :=
  if release.tag_name = "" then .error .noTagName
  else
    let available := (release.tag_name.toList.dropWhile (fun c => c == 'v' || c == 'V')).asString
    if ¬ is_newer_version current_version available then .ok none
    else if release.assets.isEmpty then .error .noAssets
    else
      match find_asset release.assets with
      | none => .error .noCompatibleAsset
      | some asset =>
        let changelog := if release.body = "" then "Sin descripcion disponible" else release.body
        if assetIdTruthy asset.id then
          .ok (some ⟨asset.id, asset.name, available, assetApiUrl asset.id.get!,
                     changelog, release.published_at, asset.size, none⟩)
        else if asset.browser_download_url = "" then .error .noDownloadUrl
        else
          .ok (some ⟨asset.id, asset.name, available, asset.browser_download_url,
                     changelog, release.published_at, asset.size, none⟩)

end Updater

/-- Success oracles for the OS-fallible steps of `download_update`:
`downloadOk` is "some attempt within `MAX_DOWNLOAD_RETRIES` streamed the
file completely", `deleteOk` is the outcome of the `safe_delete` call in
the checksum-mismatch branch. -/
structure DlEnv where
  downloadOk : Bool
  deleteOk : Bool
deriving DecidableEq, Repr

/-- Point update of the abstract file system. -/
def updateFs (fs : String → Option (List Nat)) (p : String) (v : Option (List Nat)) :
    String → Option (List Nat) :=
  fun q => if q = p then v else fs q

/-- The temp download directory (`get_temp_download_dir`), as an abstract
path prefix. -/
def TEMP_DIR : String := "POS_Updates"

/-- `download_path = self.temp_dir / info.name` (updater.py line 324). -/
def dlPath (info : UpdateInfo) : String := TEMP_DIR ++ "/" ++ info.name

/-- Result of `Updater.download_update`: the raised error if any, the
file system afterwards, the `self.downloaded_file` attribute (also the
returned path on success), and whether the `_verify_checksum` branch was
entered at all. -/
structure DlOutcome where
  err : Option UpdErr
  fs : String → Option (List Nat)
  downloaded_file : Option String
  checksumChecked : Bool

namespace Updater

/-- `Updater.download_update` (updater.py lines 312-347): pick
`update_info or self.update_info`, stream the payload to the temp path
(with retries, collapsed into the single oracle `env.downloadOk`), then —
only if `info.checksum` is truthy (non-`None` and nonempty) — verify it;
a failed verification `safe_delete`s the file and raises, a passed or
absent checksum sets `self.downloaded_file` and returns the path. -/
def download_update (h : List Nat → String) (env : DlEnv)
    (update_info self_update_info : Option UpdateInfo)
    (fs0 : String → Option (List Nat)) (payload : List Nat) : DlOutcome :=
  let info? := match update_info with
               | some i => some i
               | none => self_update_info
  match info? with
  | none => ⟨some .noUpdateInfo, fs0, none, false⟩
  | some info =>
    let path := dlPath info
    if ¬ env.downloadOk then ⟨some .downloadFailed, fs0, none, false⟩
    else
      let fs1 := updateFs fs0 path (some payload)
      match info.checksum with
      | some cs =>
        if cs != "" then
          if verify_checksum_str h fs1 path cs then ⟨none, fs1, some path, true⟩
          else
            let fs2 := if env.deleteOk then updateFs fs1 path none else fs1
            ⟨some .checksumMismatch, fs2, none, true⟩
        else ⟨none, fs1, some path, false⟩
      | none => ⟨none, fs1, some path, false⟩

end Updater

/-! ## `Updater.apply_update` (updater.py lines 450-516)

The three file locations the method touches are abstracted to slots: the
downloaded artifact at its temp path, the install path
(`get_app_compressed_path(info.name)`), and its `.exe.bak` sibling
(`app_path.with_suffix('.exe.bak')`).  A slot holds the previous
artifact, the freshly downloaded one, or nothing.  Each `safe_rename` /
kill call draws its success from the environment; a failed `safe_rename`
leaves both slots as they were (the destination unlink only runs when the
destination exists, and in every reached failure site it does not). -/

inductive Artifact where
  | orig
  | newArt
deriving DecidableEq, Repr

structure InstallState where
  downloaded : Bool
  appSlot : Option Artifact
  bakSlot : Option Artifact
  extractedNew : Bool
deriving DecidableEq, Repr

/-- Success oracles for `apply_update`: the process guard
(`is_process_running` / `kill_process`), the rename of the installed
artifact aside to `.bak`, the rename of the download into place, the two
best-effort restore renames (line 499 inside the `if not safe_rename`
branch, and line 515 in the `except` handler), and the ZIP extraction. -/
structure ApplyEnv where
  running : Bool
  killOk : Bool
  renameAsideOk : Bool
  renameInPlaceOk : Bool
  restore1Ok : Bool
  restore2Ok : Bool
  extractOk : Bool
deriving DecidableEq, Repr

namespace Updater

/-- `Updater.apply_update` (updater.py lines 450-516), following the
source line by line: precondition checks, process guard, rename-aside
backup (when `backup` is set and the install path exists), then the
`try` block — rename into place (on failure: best-effort restore, inner
`UpdateError`, re-caught by the `except` handler which restores again
best-effort and wraps), extraction (on failure the `except` handler
restores the `.bak` over the extracted artifact), and the version-file
update (best-effort, exceptions on its `ImportError` fallback path are
swallowed; not modelled).  Returns the raised error (`none` = returned
`True`) together with the final file state. -/
def apply_update (env : ApplyEnv) (infoPresent backup : Bool) (s : InstallState) :
    Option UpdErr × InstallState :=
  if ¬ s.downloaded then (some .noDownloadedFile, s)
  else if ¬ infoPresent then (some .noUpdateInfo, s)
  else if env.running ∧ ¬ env.killOk then (some .processBusy, s)
  else
    let doBak := backup ∧ s.appSlot.isSome
    if doBak ∧ ¬ env.renameAsideOk then (some .backupCreateFailed, s)
    else
      let s1 := if doBak then { s with appSlot := none, bakSlot := s.appSlot } else s
      if env.renameInPlaceOk then
        let s2 := { s1 with downloaded := false, appSlot := some .newArt }
        if env.extractOk then
          (none, { s2 with extractedNew := true })
        else
          let s3 := if doBak ∧ s2.bakSlot.isSome ∧ env.restore2Ok
                    then { s2 with appSlot := s2.bakSlot, bakSlot := none } else s2
          (some (.applyFailed .extractError), s3)
      else
        let s2 := if doBak ∧ s1.bakSlot.isSome ∧ env.restore1Ok
                  then { s1 with appSlot := s1.bakSlot, bakSlot := none } else s1
        let s3 := if doBak ∧ s2.bakSlot.isSome ∧ env.restore2Ok
                  then { s2 with appSlot := s2.bakSlot, bakSlot := none } else s2
        (some (.applyFailed .installRename), s3)

end Updater

/-! ## `BackupManager` (backup_manager.py) over a directory-tree model

The children of the POS base directory (`%LOCALAPPDATA%/POS`) are a list
of named entries in iteration order; an entry is a file with its byte
content or a directory with its own children.  The backup directory is
the child named `"backup"`.  `shutil.copy2` / `shutil.copytree` produce
byte-identical copies, so copying an entry is structural. -/

inductive Entry where
  | file (content : List Nat)
  | dir (children : List (String × Entry))

/-- `path.exists()` / `path.iterdir()` resolution of a child by name:
first entry with the given name. -/
def lookupChild (cs : List (String × Entry)) (n : String) : Option Entry :=
  (cs.find? (fun q => q.1 == n)).map Prod.snd

/-- Writing an entry at a name inside a directory: `shutil.copy2` onto an
existing file, or `rmtree` + `copytree` onto an existing directory,
replaces it in place; otherwise the entry is new and lands at the end of
the iteration order. -/
def setChild (cs : List (String × Entry)) (n : String) (e : Entry) :
    List (String × Entry) :=
  if cs.any (fun q => q.1 == n) then
    cs.map (fun q => if q.1 == n then (n, e) else q)
  else cs ++ [(n, e)]

/-- The per-item copy loops of `_copy_pos_to_backup` /
`_copy_backup_to_pos`: copy each item of `items` into the destination
directory in order. -/
def copyAll (dst items : List (String × Entry)) : List (String × Entry) :=
  items.foldl (fun acc q => setChild acc q.1 q.2) dst

/-- The `item.name == "backup": continue` filter of
`_copy_pos_to_backup` (backup_manager.py lines 163-165): keep an entry
iff it is not named `backup`. -/
def nonBackupName (q : String × Entry) : Bool :=
  q.1 != "backup"

/-- What survives `_clear_pos_directory` (backup_manager.py lines
137-147): files are deleted by the `is_file` branch whatever their name,
directories are deleted unless named `backup`. -/
def keepBackupDir (q : String × Entry) : Bool :=
  match q.2 with
  | Entry.dir _ => q.1 == "backup"
  | Entry.file _ => false

/-- The state the `BackupManager` methods act on: whether the POS base
directory exists, and its children (the `"backup"` child, when present,
is the backup directory). -/
structure PosState where
  posExists : Bool
  pos : List (String × Entry)

/-- Process-guard oracles for `downgrade` (`is_process_running` /
`kill_process` in resources/utils.py). -/
structure ProcEnv where
  running : Bool
  killOk : Bool
deriving DecidableEq, Repr

/-- The `BackupError` raises of backup_manager.py that the model
reaches, plus the uncaught `NotADirectoryError` a file sitting at the
backup path would provoke from `iterdir()`. -/
inductive BackupErr where
  | posDirMissing
  | backupNotADirectory
  | noBackups
  | processBusy
  | backupDirMissing
deriving DecidableEq, Repr

/-- Modelled from the spec: `has_backups` is imported by
backup_manager.py (line 24) from `resources.utils` but is not defined
anywhere under src/.  Per the spec (section 3, BackupSnapshot), the
existence of a matching executable inside the backup directory is the
signal `hasBackups = true`: the backup child exists, is a directory, and
holds a file named `APP_EXECUTABLE`. -/
def has_backups (pos : List (String × Entry)) : Bool :=
  match lookupChild pos "backup" with
  | some (Entry.dir cs) =>
    cs.any (fun q => q.1 == APP_EXECUTABLE &&
      match q.2 with
      | Entry.file _ => true
      | Entry.dir _ => false)
  | _ => false

/-- `BackupManager.__init__` (backup_manager.py lines 47-51): the
`has_backups` flag is computed once, at construction, and no later
method updates it. -/
structure BackupManager where
  hasBackupsFlag : Bool

def BackupManager.init (s : PosState) : BackupManager :=
  ⟨has_backups s.pos⟩

/-- `BackupManager.create_backup` (backup_manager.py lines 53-84):
require the POS directory, empty the backup directory (cleaning it if it
exists, creating it otherwise — a plain file at the backup path would
make `iterdir()` raise), then copy every child except `"backup"` itself
into it.  The idealised file primitives always succeed, so the
per-entry `BackupError` re-raises of `_clean_backup_directory` /
`_copy_pos_to_backup` are not reached.  Note the method does not touch
the manager's `has_backups` flag. -/
def create_backup (s : PosState) : Option BackupErr × PosState :=
  if ¬ s.posExists then (some .posDirMissing, s)
  else
    match lookupChild s.pos "backup" with
    | some (Entry.file _) => (some .backupNotADirectory, s)
    | _ =>
      let p1 := setChild s.pos "backup" (Entry.dir [])
      let items := p1.filter nonBackupName
      let bc := copyAll [] items
      (none, { s with pos := setChild p1 "backup" (Entry.dir bc) })

/-- `BackupManager.downgrade` (backup_manager.py lines 86-124): refuse
when the construction-time `has_backups` flag is unset; kill the running
process (failure is fatal, before any file is touched); delete every
child of the POS directory except the `"backup"` directory itself
(`_clear_pos_directory` — note a plain file named `backup` is deleted by
its `is_file` branch); copy every child of the backup directory into the
POS directory (`_copy_backup_to_pos`); finally empty the backup
directory (`_clean_backup_directory`). -/
def downgrade (m : BackupManager) (env : ProcEnv) (s : PosState) :
    Option BackupErr × PosState :=
  if ¬ m.hasBackupsFlag then (some .noBackups, s)
  else if env.running ∧ ¬ env.killOk then (some .processBusy, s)
  else
    let p1 := if s.posExists then s.pos.filter keepBackupDir else s.pos
    match lookupChild p1 "backup" with
    | none => (some .backupDirMissing, { s with pos := p1 })
    | some (Entry.file _) => (some .backupNotADirectory, { posExists := true, pos := p1 })
    | some (Entry.dir bc) =>
      let p2 := copyAll p1 bc
      let p3 := setChild p2 "backup" (Entry.dir [])
      (none, { posExists := true, pos := p3 })

/-- Children of the backup directory, when it exists and is a
directory. -/
def backupChildren (pos : List (String × Entry)) : Option (List (String × Entry)) :=
  match lookupChild pos "backup" with
  | some (Entry.dir cs) => some cs
  | _ => none

/-! ## Helper lemmas about the directory-tree primitives -/

theorem beqFalse {s t : String} (h : ¬ (s == t) = true) : (s == t) = false :=
  Bool.not_eq_true _ ▸ h

theorem setChild_of_not_mem (cs : List (String × Entry)) (n : String) (e : Entry)
    (h : n ∉ cs.map Prod.fst) : setChild cs n e = cs ++ [(n, e)] := by
  have hany : cs.any (fun q => q.1 == n) = false := by
    rw [List.any_eq_false]
    intro q hq
    simp only [beq_iff_eq]
    intro hqe
    exact h (List.mem_map.mpr ⟨q, hq, hqe⟩)
  simp [setChild, hany]

theorem copyAll_append (items : List (String × Entry)) :
    ∀ dst : List (String × Entry),
      (dst.map Prod.fst ++ items.map Prod.fst).Nodup →
      copyAll dst items = dst ++ items := by
  induction items with
  | nil => intro dst _; simp [copyAll]
  | cons q rest ih =>
    intro dst h
    have hdisj : (dst.map Prod.fst).Disjoint ((q :: rest).map Prod.fst) :=
      ((List.nodup_append.mp h).2.2)
    have hq : q.1 ∉ dst.map Prod.fst := by
      intro hmem
      exact hdisj hmem (by simp)
    have hstep : setChild dst q.1 q.2 = dst ++ [q] := by
      simpa using setChild_of_not_mem dst q.1 q.2 hq
    have hrec : copyAll dst (q :: rest) = copyAll (dst ++ [q]) rest := by
      simp [copyAll, hstep]
    rw [hrec, ih (dst ++ [q]) (by simpa [List.append_assoc] using h)]
    simp

theorem lookup_map_replace (n : String) (e : Entry) :
    ∀ cs : List (String × Entry), cs.any (fun q => q.1 == n) = true →
      lookupChild (cs.map (fun q => if q.1 == n then (n, e) else q)) n = some e := by
  intro cs
  induction cs with
  | nil => intro h; simp at h
  | cons q rest ih =>
    intro h
    rw [List.map_cons]
    by_cases hq : (q.1 == n) = true
    · rw [if_pos hq]
      unfold lookupChild
      rw [List.find?_cons_of_pos (p := fun (q : String × Entry) => q.1 == n) _ (by simp)]
      rfl
    · rw [if_neg hq]
      have hrest : rest.any (fun q => q.1 == n) = true := by
        rcases List.any_eq_true.mp h with ⟨r, hrmem, hrpred⟩
        rcases List.mem_cons.mp hrmem with heq | hmem
        · rw [heq] at hrpred; exact absurd hrpred hq
        · exact List.any_eq_true.mpr ⟨r, hmem, hrpred⟩
      unfold lookupChild
      rw [List.find?_cons_of_neg (p := fun (q : String × Entry) => q.1 == n) _ hq]
      exact ih hrest

theorem lookup_append_single (n : String) (e : Entry) :
    ∀ cs : List (String × Entry), cs.any (fun q => q.1 == n) = false →
      lookupChild (cs ++ [(n, e)]) n = some e := by
  intro cs
  induction cs with
  | nil =>
    intro _
    unfold lookupChild
    rw [List.nil_append, List.find?_cons_of_pos (p := fun (q : String × Entry) => q.1 == n) _ (by simp)]
    rfl
  | cons q rest ih =>
    intro h
    rw [List.any_eq_false] at h
    have hq : ¬ ((q.1 == n) = true) := h q (List.mem_cons_self q rest)
    have hrest : rest.any (fun q => q.1 == n) = false := by
      rw [List.any_eq_false]
      intro r hr
      exact h r (List.mem_cons_of_mem q hr)
    unfold lookupChild
    rw [List.cons_append, List.find?_cons_of_neg (p := fun (q : String × Entry) => q.1 == n) _ hq]
    exact ih hrest

theorem lookup_setChild (cs : List (String × Entry)) (n : String) (e : Entry) :
    lookupChild (setChild cs n e) n = some e := by
  unfold setChild
  by_cases hany : cs.any (fun q => q.1 == n) = true
  · rw [if_pos hany]
    exact lookup_map_replace n e cs hany
  · rw [if_neg hany]
    exact lookup_append_single n e cs (Bool.not_eq_true _ ▸ hany)

theorem map_fst_setChild (cs : List (String × Entry)) (n : String) (e : Entry)
    (hany : cs.any (fun q => q.1 == n) = true) :
    (setChild cs n e).map Prod.fst = cs.map Prod.fst := by
  rw [setChild, if_pos hany, List.map_map]
  apply List.map_congr_left
  intro q _
  by_cases hq : (q.1 == n) = true
  · show (if q.1 == n then ((n, e) : String × Entry) else q).1 = q.1
    rw [if_pos hq]
    exact (eq_of_beq hq).symm
  · show (if q.1 == n then ((n, e) : String × Entry) else q).1 = q.1
    rw [if_neg hq]

theorem nodup_setChild (cs : List (String × Entry)) (n : String) (e : Entry)
    (h : (cs.map Prod.fst).Nodup) : ((setChild cs n e).map Prod.fst).Nodup := by
  by_cases hany : cs.any (fun q => q.1 == n) = true
  · rw [map_fst_setChild cs n e hany]
    exact h
  · rw [setChild, if_neg hany, List.map_append]
    have hnm : n ∉ cs.map Prod.fst := by
      intro hmem
      obtain ⟨q, hqmem, hqe⟩ := List.mem_map.mp hmem
      exact hany (List.any_eq_true.mpr ⟨q, hqmem, by simp [hqe]⟩)
    simp [List.nodup_append, h, hnm, List.disjoint_singleton]

theorem filter_ne_map_replace (n : String) (e : Entry) :
    ∀ cs : List (String × Entry),
      (cs.map (fun q => if q.1 == n then (n, e) else q)).filter (fun q => q.1 != n)
        = cs.filter (fun q => q.1 != n) := by
  intro cs
  induction cs with
  | nil => rfl
  | cons q rest ih =>
    rw [List.map_cons]
    by_cases hq : (q.1 == n) = true
    · rw [if_pos hq]
      have h1 : (((n, e) : String × Entry).1 != n) = false := by simp
      have h2 : (q.1 != n) = false := by simp [bne, hq]
      rw [List.filter_cons, List.filter_cons, h1, h2]
      rw [if_neg Bool.false_ne_true, if_neg Bool.false_ne_true]
      exact ih
    · rw [if_neg hq]
      have h2 : (q.1 != n) = true := by simp [bne, beqFalse hq]
      rw [List.filter_cons, List.filter_cons, h2]
      rw [if_pos rfl, if_pos rfl, ih]

theorem filter_ne_setChild (cs : List (String × Entry)) (n : String) (e : Entry) :
    (setChild cs n e).filter (fun q => q.1 != n) = cs.filter (fun q => q.1 != n) := by
  unfold setChild
  by_cases hany : cs.any (fun q => q.1 == n) = true
  · rw [if_pos hany]
    exact filter_ne_map_replace n e cs
  · rw [if_neg hany, List.filter_append]
    simp [bne]

theorem setChild_cons_head (n : String) (d e : Entry) (cs : List (String × Entry))
    (h : ∀ r ∈ cs, (r.1 == n) = false) :
    setChild ((n, d) :: cs) n e = (n, e) :: cs := by
  have hany : ((n, d) :: cs).any (fun q => q.1 == n) = true := by
    simp [List.any_cons]
  rw [setChild, if_pos hany, List.map_cons]
  have hhead : (if ((n, d) : String × Entry).1 == n then ((n, e) : String × Entry)
      else (n, d)) = (n, e) := by
    rw [if_pos (by simp)]
  rw [hhead]
  have hmap : cs.map (fun q => if q.1 == n then ((n, e) : String × Entry) else q) = cs := by
    conv_rhs => rw [← List.map_id cs]
    apply List.map_congr_left
    intro q hq
    simp [h q hq]
  rw [hmap]

theorem filter_keepBackupDir_eq (bc : List (String × Entry)) :
    ∀ cs : List (String × Entry), (cs.map Prod.fst).Nodup →
      lookupChild cs "backup" = some (Entry.dir bc) →
      cs.filter keepBackupDir = [("backup", Entry.dir bc)] := by
  intro cs
  induction cs with
  | nil => intro _ hl; simp [lookupChild] at hl
  | cons q rest ih =>
    intro hnd hl
    obtain ⟨qn, qe⟩ := q
    by_cases hq : (qn == "backup") = true
    · have hqn : qn = "backup" := eq_of_beq hq
      have hqe : qe = Entry.dir bc := by
        unfold lookupChild at hl
        rw [List.find?_cons_of_pos (p := fun (q : String × Entry) => q.1 == "backup") _ hq] at hl
        simpa using hl
      have hrest : ∀ r ∈ rest, keepBackupDir r = false := by
        intro r hr
        have hne : r.1 ≠ "backup" := by
          intro hre
          have hmem : qn ∈ rest.map Prod.fst := by
            rw [hqn, ← hre]
            exact List.mem_map.mpr ⟨r, hr, rfl⟩
          exact (List.nodup_cons.mp (by simpa using hnd)).1 hmem
        unfold keepBackupDir
        cases hre : r.2 with
        | file _ => rfl
        | dir _ => simpa using hne
      have hfil : rest.filter keepBackupDir = [] := by
        rw [List.filter_eq_nil_iff]
        intro r hr
        simp [hrest r hr]
      rw [List.filter_cons]
      have hkeep : keepBackupDir (qn, qe) = true := by
        rw [hqe]
        unfold keepBackupDir
        simpa using hqn
      rw [hkeep, hfil, hqn, hqe]
      simp
    · have hkeep : keepBackupDir (qn, qe) = false := by
        unfold keepBackupDir
        cases qe with
        | file _ => rfl
        | dir _ => simpa using beq_false_of_ne hq
      have hl' : lookupChild rest "backup" = some (Entry.dir bc) := by
        unfold lookupChild at hl ⊢
        rwa [List.find?_cons_of_neg (p := fun (q : String × Entry) => q.1 == "backup") _ hq] at hl
      have hnd' : (rest.map Prod.fst).Nodup := (List.nodup_cons.mp (by simpa using hnd)).2
      rw [List.filter_cons, hkeep]
      simpa using ih hnd' hl'

theorem any_of_lookup (cs : List (String × Entry)) (n : String) (e : Entry)
    (h : lookupChild cs n = some e) : cs.any (fun q => q.1 == n) = true := by
  unfold lookupChild at h
  cases hf : cs.find? (fun q => q.1 == n) with
  | none => rw [hf] at h; simp at h
  | some q =>
    have hpred : (q.1 == n) = true := by
      have := List.find?_some hf
      simpa using this
    exact List.any_eq_true.mpr ⟨q, List.mem_of_find?_eq_some hf, hpred⟩

theorem create_backup_eq (s : PosState) (cs0 : List (String × Entry))
    (hex : s.posExists = true)
    (hl : lookupChild s.pos "backup" = some (Entry.dir cs0)) :
    create_backup s =
      (none, ⟨s.posExists,
        setChild (setChild s.pos "backup" (Entry.dir [])) "backup"
          (Entry.dir (copyAll []
            ((setChild s.pos "backup" (Entry.dir [])).filter nonBackupName)))⟩) := by
  unfold create_backup
  rw [hl, hex]
  rfl

theorem downgrade_eq (m : BackupManager) (env : ProcEnv) (s : PosState)
    (bc : List (String × Entry))
    (hm : m.hasBackupsFlag = true)
    (hk : env.running = true → env.killOk = true)
    (hex : s.posExists = true)
    (hfil : s.pos.filter keepBackupDir = [("backup", Entry.dir bc)]) :
    downgrade m env s =
      (none, ⟨true, setChild (copyAll [("backup", Entry.dir bc)] bc) "backup" (Entry.dir [])⟩) := by
  unfold downgrade
  have hguard : ¬ (env.running = true ∧ ¬ env.killOk = true) := by
    rintro ⟨h1, h2⟩
    exact h2 (hk h1)
  rw [hm, hex, hfil, if_neg hguard]
  rfl

/-- C1 (amended): the backup/restore round trip holds only for a manager
whose construction-time `has_backups` flag is already set.  If the backup
directory holds the saved executable when the `BackupManager` is built
(so `has_backups` was `true` in `__init__`), then `create_backup`
followed by `downgrade` on that manager succeeds, reproduces the
installed directory byte-identically (every entry except the backup
directory itself is restored exactly), and leaves the backup directory
empty.  The claimed `NoBackup -> HasBackup` transition on `create_backup`
does not exist in the code: the flag is computed once at construction and
never updated, so the unamended claim fails (see the counterexample). -/
theorem backup_roundtrip_core (s : PosState) (env : ProcEnv)
    (hex : s.posExists = true)
    (hhb : has_backups s.pos = true)
    (hnd : (s.pos.map Prod.fst).Nodup)
    (hk : env.running = true → env.killOk = true) :
    (create_backup s).1 = none ∧
    (downgrade (BackupManager.init s) env (create_backup s).2).1 = none ∧
    ((downgrade (BackupManager.init s) env (create_backup s).2).2).pos.filter nonBackupName
      = s.pos.filter nonBackupName ∧
    backupChildren ((downgrade (BackupManager.init s) env (create_backup s).2).2).pos
      = some [] := by
  obtain ⟨cs0, hl0⟩ : ∃ c, lookupChild s.pos "backup" = some (Entry.dir c) := by
    unfold has_backups at hhb
    cases hle : lookupChild s.pos "backup" with
    | none => rw [hle] at hhb; simp at hhb
    | some e =>
      cases e with
      | file c => rw [hle] at hhb; simp at hhb
      | dir c => exact ⟨c, rfl⟩
  have hcreate := create_backup_eq s cs0 hex hl0
  have hitems_eq : (setChild s.pos "backup" (Entry.dir [])).filter nonBackupName
      = s.pos.filter nonBackupName :=
    filter_ne_setChild s.pos "backup" (Entry.dir [])
  have hnd_p1 : ((setChild s.pos "backup" (Entry.dir [])).map Prod.fst).Nodup :=
    nodup_setChild s.pos "backup" (Entry.dir []) hnd
  have hnd_items :
      (((setChild s.pos "backup" (Entry.dir [])).filter nonBackupName).map Prod.fst).Nodup :=
    List.Nodup.sublist ((List.filter_sublist _).map Prod.fst) hnd_p1
  have hbc_eq : copyAll [] ((setChild s.pos "backup" (Entry.dir [])).filter nonBackupName)
      = (setChild s.pos "backup" (Entry.dir [])).filter nonBackupName :=
    copyAll_append _ [] (by simpa using hnd_items)
  have hbc_nb : ∀ r ∈ copyAll [] ((setChild s.pos "backup" (Entry.dir [])).filter nonBackupName),
      (r.1 == "backup") = false := by
    intro r hr
    rw [hbc_eq] at hr
    have hmem := List.of_mem_filter hr
    simpa [nonBackupName, bne] using hmem
  have hbc_nodup :
      ((copyAll [] ((setChild s.pos "backup" (Entry.dir [])).filter nonBackupName)).map
        Prod.fst).Nodup := by
    rw [hbc_eq]; exact hnd_items
  have hP : (create_backup s).2
      = ⟨s.posExists, setChild (setChild s.pos "backup" (Entry.dir [])) "backup"
          (Entry.dir (copyAll []
            ((setChild s.pos "backup" (Entry.dir [])).filter nonBackupName)))⟩ := by
    rw [hcreate]
  have hPnodup : (((create_backup s).2).pos.map Prod.fst).Nodup := by
    rw [hP]
    exact nodup_setChild _ "backup" _ hnd_p1
  have hPlookup : lookupChild ((create_backup s).2).pos "backup"
      = some (Entry.dir (copyAll []
          ((setChild s.pos "backup" (Entry.dir [])).filter nonBackupName))) := by
    rw [hP]
    exact lookup_setChild _ "backup" _
  have hPfil : ((create_backup s).2).pos.filter keepBackupDir
      = [("backup", Entry.dir (copyAll []
          ((setChild s.pos "backup" (Entry.dir [])).filter nonBackupName)))] :=
    filter_keepBackupDir_eq _ _ hPnodup hPlookup
  have hPex : ((create_backup s).2).posExists = true := by rw [hP]; exact hex
  have hdown := downgrade_eq (BackupManager.init s) env ((create_backup s).2) _ hhb hk hPex hPfil
  have hp2 : copyAll
        [("backup", Entry.dir (copyAll []
          ((setChild s.pos "backup" (Entry.dir [])).filter nonBackupName)))]
        (copyAll [] ((setChild s.pos "backup" (Entry.dir [])).filter nonBackupName))
      = ("backup", Entry.dir (copyAll []
          ((setChild s.pos "backup" (Entry.dir [])).filter nonBackupName)))
        :: copyAll [] ((setChild s.pos "backup" (Entry.dir [])).filter nonBackupName) := by
    apply copyAll_append
    simp only [List.map_cons, List.map_nil, List.cons_append, List.nil_append]
    rw [List.nodup_cons]
    constructor
    · intro hmem
      obtain ⟨r, hr, hre⟩ := List.mem_map.mp hmem
      have hfalse := hbc_nb r hr
      rw [hre] at hfalse
      simp at hfalse
    · exact hbc_nodup
  have hp3 : setChild
        (("backup", Entry.dir (copyAll []
          ((setChild s.pos "backup" (Entry.dir [])).filter nonBackupName)))
          :: copyAll [] ((setChild s.pos "backup" (Entry.dir [])).filter nonBackupName))
        "backup" (Entry.dir [])
      = ("backup", Entry.dir [])
          :: copyAll [] ((setChild s.pos "backup" (Entry.dir [])).filter nonBackupName) :=
    setChild_cons_head "backup" _ _ _ hbc_nb
  have hfinal : ((downgrade (BackupManager.init s) env (create_backup s).2).2).pos
      = ("backup", Entry.dir [])
          :: copyAll [] ((setChild s.pos "backup" (Entry.dir [])).filter nonBackupName) := by
    rw [hdown]
    show setChild _ "backup" (Entry.dir []) = _
    rw [hp2, hp3]
  refine ⟨?_, ?_, ?_, ?_⟩
  · rw [hcreate]
  · rw [hdown]
  · rw [hfinal, List.filter_cons]
    have hh : nonBackupName ("backup", Entry.dir []) = false := by
      simp [nonBackupName]
    rw [hh, if_neg Bool.false_ne_true]
    have hself : (copyAll []
        ((setChild s.pos "backup" (Entry.dir [])).filter nonBackupName)).filter nonBackupName
        = copyAll [] ((setChild s.pos "backup" (Entry.dir [])).filter nonBackupName) := by
      rw [List.filter_eq_self]
      intro r hr
      have := hbc_nb r hr
      simp [nonBackupName, bne, this]
    rw [hself, hbc_eq, hitems_eq]
  · rw [hfinal]
    unfold backupChildren lookupChild
    rw [List.find?_cons_of_pos (p := fun (q : String × Entry) => q.1 == "backup") _ (by simp)]
    rfl

/-- C1 counterexample: on a POS tree with no pre-existing backup,
`create_backup` succeeds and afterwards a backup holding the executable
exists on disk (`has_backups` of the resulting tree is `true`), yet
`downgrade` on the same manager — whose flag was computed at construction
— is rejected with `BackupError("No hay backups disponibles")` instead of
restoring, refuting the claimed round trip and its
`NoBackup -> HasBackup` transition. -/
theorem backup_roundtrip_counterexample :
    (create_backup ⟨true, [("POS.exe", Entry.file [1, 2]),
        ("data", Entry.dir [("a.txt", Entry.file [3])])]⟩).1 = none ∧
    has_backups ((create_backup ⟨true, [("POS.exe", Entry.file [1, 2]),
        ("data", Entry.dir [("a.txt", Entry.file [3])])]⟩).2).pos = true ∧
    (downgrade (BackupManager.init ⟨true, [("POS.exe", Entry.file [1, 2]),
        ("data", Entry.dir [("a.txt", Entry.file [3])])]⟩) ⟨false, true⟩
      (create_backup ⟨true, [("POS.exe", Entry.file [1, 2]),
        ("data", Entry.dir [("a.txt", Entry.file [3])])]⟩).2).1
      = some BackupErr.noBackups := by
  refine ⟨rfl, rfl, rfl⟩

/-- C1 witness: the amended round trip at a concrete tree whose backup
directory already holds `POS.exe` at construction time. -/
theorem backup_roundtrip_core_witness :
    ((⟨true, [("POS.exe", Entry.file [7]),
        ("backup", Entry.dir [("POS.exe", Entry.file [9])]),
        ("cfg", Entry.file [3])]⟩ : PosState).posExists = true ∧
     has_backups (⟨true, [("POS.exe", Entry.file [7]),
        ("backup", Entry.dir [("POS.exe", Entry.file [9])]),
        ("cfg", Entry.file [3])]⟩ : PosState).pos = true ∧
     ((⟨true, [("POS.exe", Entry.file [7]),
        ("backup", Entry.dir [("POS.exe", Entry.file [9])]),
        ("cfg", Entry.file [3])]⟩ : PosState).pos.map Prod.fst).Nodup ∧
     ((⟨false, true⟩ : ProcEnv).running = true → (⟨false, true⟩ : ProcEnv).killOk = true)) ∧
    ((create_backup ⟨true, [("POS.exe", Entry.file [7]),
        ("backup", Entry.dir [("POS.exe", Entry.file [9])]),
        ("cfg", Entry.file [3])]⟩).1 = none ∧
     (downgrade (BackupManager.init ⟨true, [("POS.exe", Entry.file [7]),
        ("backup", Entry.dir [("POS.exe", Entry.file [9])]),
        ("cfg", Entry.file [3])]⟩) ⟨false, true⟩
        (create_backup ⟨true, [("POS.exe", Entry.file [7]),
          ("backup", Entry.dir [("POS.exe", Entry.file [9])]),
          ("cfg", Entry.file [3])]⟩).2).1 = none ∧
     ((downgrade (BackupManager.init ⟨true, [("POS.exe", Entry.file [7]),
        ("backup", Entry.dir [("POS.exe", Entry.file [9])]),
        ("cfg", Entry.file [3])]⟩) ⟨false, true⟩
        (create_backup ⟨true, [("POS.exe", Entry.file [7]),
          ("backup", Entry.dir [("POS.exe", Entry.file [9])]),
          ("cfg", Entry.file [3])]⟩).2).2).pos.filter nonBackupName
       = (⟨true, [("POS.exe", Entry.file [7]),
          ("backup", Entry.dir [("POS.exe", Entry.file [9])]),
          ("cfg", Entry.file [3])]⟩ : PosState).pos.filter nonBackupName ∧
     backupChildren ((downgrade (BackupManager.init ⟨true, [("POS.exe", Entry.file [7]),
        ("backup", Entry.dir [("POS.exe", Entry.file [9])]),
        ("cfg", Entry.file [3])]⟩) ⟨false, true⟩
        (create_backup ⟨true, [("POS.exe", Entry.file [7]),
          ("backup", Entry.dir [("POS.exe", Entry.file [9])]),
          ("cfg", Entry.file [3])]⟩).2).2).pos = some []) :=
  ⟨⟨rfl, rfl, by decide, fun h => absurd h (by decide)⟩,
   backup_roundtrip_core
     ⟨true, [("POS.exe", Entry.file [7]),
        ("backup", Entry.dir [("POS.exe", Entry.file [9])]),
        ("cfg", Entry.file [3])]⟩
     ⟨false, true⟩ rfl rfl (by decide) (fun h => absurd h (by decide))⟩

/-- C2 (amended): when the rename of the downloaded artifact into the
install path fails after the previous artifact was renamed aside to its
`.bak` sibling, `apply_update` always raises the install `UpdateError`;
the original artifact is back at its original install path when the call
returns provided at least one of the two best-effort restore renames
(the one inside the failing branch, or the one in the outer `except`
handler) succeeds.  If both best-effort restores fail, the original
stays at the `.bak` sibling (see the counterexample), so the unamended
unconditional restoration claim does not hold. -/
theorem apply_rollback_amended (env : ApplyEnv) (s : InstallState)
    (hd : s.downloaded = true) (ha : s.appSlot = some Artifact.orig)
    (hk : env.running = true → env.killOk = true)
    (haside : env.renameAsideOk = true) (hfail : env.renameInPlaceOk = false)
    (hrestore : env.restore1Ok = true ∨ env.restore2Ok = true) :
    (Updater.apply_update env true true s).1
      = some (UpdErr.applyFailed ApplyExc.installRename) ∧
    ((Updater.apply_update env true true s).2).appSlot = some Artifact.orig := by
  obtain ⟨r, k, a1, a2, r1, r2, x⟩ := env
  obtain ⟨d, app, bak, ex⟩ := s
  dsimp only at hd ha hk haside hfail hrestore
  subst hd ha haside hfail
  cases r with
  | true =>
    have hktrue : k = true := hk rfl
    subst hktrue
    rcases hrestore with h1 | h2
    · subst h1
      cases r2 <;> cases x <;> rcases bak with _ | af <;> (try cases af) <;> cases ex <;> decide
    · subst h2
      cases r1 <;> cases x <;> rcases bak with _ | af <;> (try cases af) <;> cases ex <;> decide
  | false =>
    rcases hrestore with h1 | h2
    · subst h1
      cases k <;> cases r2 <;> cases x <;> rcases bak with _ | af <;> (try cases af) <;> cases ex <;> decide
    · subst h2
      cases k <;> cases r1 <;> cases x <;> rcases bak with _ | af <;> (try cases af) <;> cases ex <;> decide

/-- C2 counterexample: with the rename-into-place step failing and both
best-effort restore renames also failing, `apply_update` raises the
install error but returns with the install path empty and the original
artifact still parked at the `.bak` sibling — the claimed unconditional
"original is back at its original install path" is false. -/
theorem apply_rollback_counterexample :
    Updater.apply_update ⟨false, true, true, false, false, false, true⟩ true true
        ⟨true, some Artifact.orig, none, false⟩
      = (some (UpdErr.applyFailed ApplyExc.installRename),
         ⟨true, none, some Artifact.orig, false⟩) ∧
    (⟨true, none, some Artifact.orig, false⟩ : InstallState).appSlot
      ≠ some Artifact.orig := by
  constructor
  · rfl
  · decide

/-- C2 witness: rollback at a concrete environment where the first
best-effort restore succeeds. -/
theorem apply_rollback_amended_witness :
    ((⟨true, some Artifact.orig, none, false⟩ : InstallState).downloaded = true ∧
     (⟨true, some Artifact.orig, none, false⟩ : InstallState).appSlot = some Artifact.orig ∧
     ((⟨false, true, true, false, true, false, true⟩ : ApplyEnv).running = true →
       (⟨false, true, true, false, true, false, true⟩ : ApplyEnv).killOk = true) ∧
     (⟨false, true, true, false, true, false, true⟩ : ApplyEnv).renameAsideOk = true ∧
     (⟨false, true, true, false, true, false, true⟩ : ApplyEnv).renameInPlaceOk = false ∧
     ((⟨false, true, true, false, true, false, true⟩ : ApplyEnv).restore1Ok = true ∨
       (⟨false, true, true, false, true, false, true⟩ : ApplyEnv).restore2Ok = true)) ∧
    ((Updater.apply_update ⟨false, true, true, false, true, false, true⟩ true true
        ⟨true, some Artifact.orig, none, false⟩).1
      = some (UpdErr.applyFailed ApplyExc.installRename) ∧
     ((Updater.apply_update ⟨false, true, true, false, true, false, true⟩ true true
        ⟨true, some Artifact.orig, none, false⟩).2).appSlot = some Artifact.orig) :=
  ⟨⟨rfl, rfl, fun h => absurd h (by decide), rfl, rfl, Or.inl rfl⟩,
   apply_rollback_amended ⟨false, true, true, false, true, false, true⟩
     ⟨true, some Artifact.orig, none, false⟩ rfl rfl
     (fun h => absurd h (by decide)) rfl rfl (Or.inl rfl)⟩

/-- C3: if the target process is running and the kill fails, both
`apply_update` and `downgrade` return with an error raised and the file
state completely untouched; when their preconditions hold the error is
precisely `ProcessBusy` (`UpdateError` asking to close the app, resp.
`BackupError`).  Since both methods test the guard before any file
operation, no rename, delete or overwrite ever happens while the process
is still running. -/
theorem process_guard_fatal (ea : ApplyEnv) (ip bk : Bool) (sa : InstallState)
    (m : BackupManager) (eb : ProcEnv) (sb : PosState)
    (hra : ea.running = true) (hka : ea.killOk = false)
    (hrb : eb.running = true) (hkb : eb.killOk = false) :
    ((Updater.apply_update ea ip bk sa).1.isSome = true ∧
      (Updater.apply_update ea ip bk sa).2 = sa ∧
      (sa.downloaded = true → ip = true →
        (Updater.apply_update ea ip bk sa).1 = some UpdErr.processBusy)) ∧
    ((downgrade m eb sb).1.isSome = true ∧
      (downgrade m eb sb).2 = sb ∧
      (m.hasBackupsFlag = true → (downgrade m eb sb).1 = some BackupErr.processBusy)) := by
  constructor
  · unfold Updater.apply_update
    cases hd : sa.downloaded with
    | false => simp [hd]
    | true =>
      cases hip : ip with
      | false => simp [hd, hip]
      | true => simp [hd, hip, hra, hka]
  · unfold downgrade
    cases hm : m.hasBackupsFlag with
    | false => simp [hm]
    | true => simp [hm, hrb, hkb]

/-- C3 witness: the guard at a concrete running-and-unkillable process,
for both operations. -/
theorem process_guard_fatal_witness :
    ((⟨true, false, true, true, true, true, true⟩ : ApplyEnv).running = true ∧
     (⟨true, false, true, true, true, true, true⟩ : ApplyEnv).killOk = false ∧
     (⟨true, false⟩ : ProcEnv).running = true ∧
     (⟨true, false⟩ : ProcEnv).killOk = false) ∧
    (((Updater.apply_update ⟨true, false, true, true, true, true, true⟩ true true
        ⟨true, some Artifact.orig, none, false⟩).1.isSome = true ∧
      (Updater.apply_update ⟨true, false, true, true, true, true, true⟩ true true
        ⟨true, some Artifact.orig, none, false⟩).2
        = ⟨true, some Artifact.orig, none, false⟩ ∧
      ((⟨true, some Artifact.orig, none, false⟩ : InstallState).downloaded = true →
        true = true →
        (Updater.apply_update ⟨true, false, true, true, true, true, true⟩ true true
          ⟨true, some Artifact.orig, none, false⟩).1 = some UpdErr.processBusy)) ∧
     ((downgrade ⟨true⟩ ⟨true, false⟩ ⟨true, []⟩).1.isSome = true ∧
      (downgrade ⟨true⟩ ⟨true, false⟩ ⟨true, []⟩).2 = ⟨true, []⟩ ∧
      ((⟨true⟩ : BackupManager).hasBackupsFlag = true →
        (downgrade ⟨true⟩ ⟨true, false⟩ ⟨true, []⟩).1 = some BackupErr.processBusy))) :=
  ⟨⟨rfl, rfl, rfl, rfl⟩,
   process_guard_fatal ⟨true, false, true, true, true, true, true⟩ true true
     ⟨true, some Artifact.orig, none, false⟩ ⟨true⟩ ⟨true, false⟩ ⟨true, []⟩
     rfl rfl rfl rfl⟩

/-- C4 (amended): when an installed version is recorded,
`_is_newer_version` does fail closed — a non-parseable candidate is never
reported newer.  When no installed version is recorded the method
returns `True` unconditionally, before any parsing, so an unparseable
candidate is then treated as newer (see the counterexample): the
"regardless of whether an installed version is recorded or absent" part
of the claim is false. -/
theorem is_newer_fails_closed (cur cand : String)
    (hp : Updater.parse_version cand = none) :
    Updater.is_newer_version (some cur) cand = false := by
  dsimp only [Updater.is_newer_version]
  rw [hp]
  cases hc : Updater.parse_version cur <;> rfl

/-- C4 counterexample: `"abc"` does not parse, yet with no installed
version recorded `_is_newer_version` reports it newer (updater.py line
277-278 returns `True` before parsing the candidate). -/
theorem is_newer_none_counterexample :
    Updater.parse_version "abc" = none ∧
    Updater.is_newer_version none "abc" = true :=
  ⟨by decide, rfl⟩

/-- C4 witness: fails closed at installed `"1.0.0"` and candidate
`"abc"`. -/
theorem is_newer_fails_closed_witness :
    Updater.parse_version "abc" = none ∧
    Updater.is_newer_version (some "1.0.0") "abc" = false :=
  ⟨by decide, is_newer_fails_closed "1.0.0" "abc" (by decide)⟩

/-- C5 (amended): the parse used for the installed-vs-available decision
(`Updater._parse_version`, called from `_is_newer_version`) is the
lenient variant: it pads missing trailing components with zeros
(`"1.2"` parses as `(1, 2, 0)`), silently drops components beyond the
third, strips every leading `v`/`V`, and accepts negative components.
The strict exactly-three-components parse lives in
resources/version.py's `parse_version` (used for the launcher's own
version bookkeeping): it does reject `"1.2"`, but it too accepts
negative components, so neither variant enforces non-negativity. -/
theorem parse_lenient_vs_strict :
    Updater.parse_version "1.2" = some (1, 2, 0) ∧
    Updater.parse_version "1.2.3.9" = some (1, 2, 3) ∧
    Updater.parse_version " v1.2.-3 " = some (1, 2, -3) ∧
    Updater.parse_version "vv1.2.3" = some (1, 2, 3) ∧
    Resources.parse_version "1.2" = none ∧
    Resources.parse_version "1.2.-3" = some (1, 2, -3) ∧
    Resources.parse_version "v1.2.3" = some (1, 2, 3) := by
  decide

/-- C5 counterexample: the comparison-path parse accepts the
two-component string `"1.2"` (padding it to `(1, 2, 0)`) instead of
failing as the claim requires. -/
theorem parse_two_components_counterexample :
    Updater.parse_version "1.2" = some (1, 2, 0) := by decide

/-! Substring machinery for the asset-resolution claim. -/

theorem isPrefixOf_self (l : List Char) : l.isPrefixOf l = true := by
  induction l with
  | nil => rfl
  | cons c t ih => simp [List.isPrefixOf, ih]

theorem containsSub_refl (l : List Char) : containsSub l l = true := by
  unfold containsSub
  rw [isPrefixOf_self]
  rfl

theorem strContains_of_eq (a p : String) (h : a = p) : strContains a p = true := by
  subst h
  unfold strContains
  exact containsSub_refl _

theorem find_matching_eq_find? (assets : List Asset) :
    Updater.find_matching assets
      = assets.find? (fun a => Updater.patterns.any (fun p => strContains a.name p)) := by
  induction assets with
  | nil => rfl
  | cons a rest ih =>
    by_cases hc : (Updater.patterns.any fun p => strContains a.name p) = true
    · rw [List.find?_cons_of_pos
        (p := fun (a : Asset) => Updater.patterns.any fun p => strContains a.name p) _ hc]
      unfold Updater.find_matching
      by_cases he : (Updater.patterns.any fun p => a.name == p) = true
      · rw [if_pos he]
      · rw [if_neg he, if_pos hc]
    · have hcf : (Updater.patterns.any fun p => strContains a.name p) = false :=
        Bool.not_eq_true _ ▸ hc
      have he : (Updater.patterns.any fun p => a.name == p) = false := by
        rw [List.any_eq_false] at hcf ⊢
        intro p hp hbeq
        exact hcf p hp (strContains_of_eq _ _ (eq_of_beq hbeq))
      rw [List.find?_cons_of_neg
        (p := fun (a : Asset) => Updater.patterns.any fun p => strContains a.name p) _ hc]
      unfold Updater.find_matching
      rw [if_neg (by simp [he]), if_neg hc]
      exact ih

/-- C6 (amended): `_find_asset` scans the assets in list order and
returns the first asset whose name equals or merely contains one of the
patterns — exact matching takes priority over substring matching only
within a single asset (where it is vacuous, an exact match being a
substring match), never across assets, so an earlier substring-only
match beats a later exact match (see the counterexample).  With no
matching asset it falls back to the first asset.  The specification's
own worked example still resolves as stated. -/
theorem find_asset_amended :
    (∀ assets : List Asset,
        Updater.find_asset assets =
          match assets.find? (fun a => Updater.patterns.any fun p => strContains a.name p) with
          | some a => some a
          | none => assets.head?) ∧
    Updater.find_asset [⟨none, "Other.zip", 0, ""⟩, ⟨none, "POS-Windows.zip", 0, ""⟩,
        ⟨none, "POS.exe", 0, ""⟩]
      = some ⟨none, "POS-Windows.zip", 0, ""⟩ := by
  constructor
  · intro assets
    unfold Updater.find_asset
    rw [find_matching_eq_find?]
  · decide

/-- C6 counterexample: `"myPOS-Windows.zip"` is not an exact match of
any pattern but contains the top-priority pattern as a substring, while
the later `"POS-Windows.zip"` is an exact match of the top-priority
pattern; the resolver nevertheless returns the earlier asset, refuting
"an exact match on any asset is always preferred over a substring match
on an earlier asset". -/
theorem find_asset_counterexample :
    Updater.find_asset [⟨none, "myPOS-Windows.zip", 0, ""⟩, ⟨none, "POS-Windows.zip", 0, ""⟩]
      = some ⟨none, "myPOS-Windows.zip", 0, ""⟩ ∧
    (Updater.patterns.any fun p => ("myPOS-Windows.zip" : String) == p) = false ∧
    (Updater.patterns.any fun p => ("POS-Windows.zip" : String) == p) = true := by
  refine ⟨by decide, by decide, by decide⟩

/-! Characterisation of `verify_checksum`, shared by the checksum
claims. -/

theorem verify_checksum_true_iff (h : List Nat → String) (fs : String → Option (List Nat))
    (p e : String) :
    verify_checksum h fs p e = true ↔ ∃ b, fs p = some b ∧ pyLower (h b) = pyLower e := by
  unfold verify_checksum calculate_sha256
  cases hfs : fs p with
  | none => simp
  | some b => simp [beq_iff_eq]

/-- C8: `verify_checksum` is total — it returns a boolean for every
abstract file system, path and expected string, catching read failures
rather than propagating them — and it returns `true` exactly when the
file is readable and its SHA-256 digest equals the expected string up to
letter case (both sides pushed through `.lower()`); on an unreadable or
missing file (`fs p = none`, second conjunct instantiated at the
everywhere-missing file system) it returns `false`. -/
theorem verify_checksum_total_spec (h : List Nat → String)
    (fs : String → Option (List Nat)) (p e : String) :
    (verify_checksum h fs p e = true ↔
      ∃ b, fs p = some b ∧ pyLower (h b) = pyLower e) ∧
    verify_checksum h (fun _ => none) p e = false := by
  exact ⟨verify_checksum_true_iff h fs p e, rfl⟩

/-- C10: `Updater._verify_checksum` returns `false` exactly when the
declared algorithm (the part before the first `:`, defaulting to
`sha256` when no colon is present) is `sha256` up to case AND the
verification of the hex part fails (no readable file whose digest
matches up to case); in particular for any other declared algorithm the
artifact is accepted as valid without being verified.  The
`except Exception: return True` branch is unreachable in the model since
`verify_checksum` never raises (C8). -/
theorem verify_checksum_str_false_iff (h : List Nat → String)
    (fs : String → Option (List Nat)) (p c : String) :
    Updater.verify_checksum_str h fs p c = false ↔
      (pyLower (splitChecksum c).1 = "sha256" ∧
       ¬ ∃ b, fs p = some b ∧ pyLower (h b) = pyLower (splitChecksum c).2) := by
  unfold Updater.verify_checksum_str
  dsimp only
  by_cases halg : pyLower (splitChecksum c).1 = "sha256"
  · have hbne : (pyLower (splitChecksum c).1 != "sha256") = false := by
      simp [bne, halg]
    rw [hbne, if_neg Bool.false_ne_true]
    constructor
    · intro hfalse
      refine ⟨halg, fun hex => ?_⟩
      exact Bool.false_ne_true
        (hfalse ▸ (verify_checksum_true_iff h fs p (splitChecksum c).2).mpr hex)
    · rintro ⟨-, hnex⟩
      cases hv : verify_checksum h fs p (splitChecksum c).2 with
      | false => rfl
      | true =>
        exact absurd ((verify_checksum_true_iff h fs p (splitChecksum c).2).mp hv) hnex
  · have hbne : (pyLower (splitChecksum c).1 != "sha256") = true := by
      simp [bne]
      exact halg
    rw [hbne, if_pos rfl]
    simp [halg]

/-- C7 (amended): if the update info carries a truthy declared checksum
and the verification of the downloaded payload fails, `download_update`
always raises `UpdateError` instead of returning the path and leaves
`self.downloaded_file` unset (so the payload can never be fed to
`apply_update`); the deletion of the downloaded file is best-effort — a
single `safe_delete` call whose result the source ignores — so the file
is gone from disk exactly when that delete succeeds and still on disk
when it fails (see the counterexample for the latter). -/
theorem download_checksum_mismatch (h : List Nat → String) (env : DlEnv)
    (info : UpdateInfo) (self? : Option UpdateInfo)
    (fs0 : String → Option (List Nat)) (payload : List Nat) (cs : String)
    (hdl : env.downloadOk = true)
    (hcs : info.checksum = some cs) (hne : cs ≠ "")
    (hv : Updater.verify_checksum_str h (updateFs fs0 (dlPath info) (some payload))
        (dlPath info) cs = false) :
    (Updater.download_update h env (some info) self? fs0 payload).err
      = some UpdErr.checksumMismatch ∧
    (Updater.download_update h env (some info) self? fs0 payload).downloaded_file = none ∧
    (Updater.download_update h env (some info) self? fs0 payload).fs (dlPath info)
      = (if env.deleteOk = true then none else some payload) := by
  have hne' : (cs != "") = true := bne_iff_ne.mpr hne
  dsimp only [Updater.download_update]
  rw [hdl, hcs]
  dsimp only
  rw [hne', hv]
  refine ⟨rfl, rfl, ?_⟩
  cases hdel : env.deleteOk <;> simp [hdel, updateFs]

/-- C7 counterexample: with the `safe_delete` primitive failing (its
return value is ignored at updater.py line 343), `download_update` still
raises the checksum `UpdateError` and keeps `downloaded_file` unset, but
the downloaded payload is NOT deleted — it is still on disk at the
download path when the call returns, refuting the claim that a failing
declared checksum deletes the downloaded file. -/
theorem download_checksum_delete_counterexample :
    (Updater.download_update (fun _ => "ff") ⟨true, false⟩
        (some ⟨some 1, "A.zip", "1.0.0", "u", "c", "", 5, some "sha256:00"⟩) none
        (fun _ => none) [0]).err = some UpdErr.checksumMismatch ∧
    (Updater.download_update (fun _ => "ff") ⟨true, false⟩
        (some ⟨some 1, "A.zip", "1.0.0", "u", "c", "", 5, some "sha256:00"⟩) none
        (fun _ => none) [0]).downloaded_file = none ∧
    (Updater.download_update (fun _ => "ff") ⟨true, false⟩
        (some ⟨some 1, "A.zip", "1.0.0", "u", "c", "", 5, some "sha256:00"⟩) none
        (fun _ => none) [0]).fs
        (dlPath ⟨some 1, "A.zip", "1.0.0", "u", "c", "", 5, some "sha256:00"⟩)
      = some [0] := by
  refine ⟨rfl, rfl, ?_⟩
  decide

/-- C7 witness: a concrete mismatching sha256 checksum on a concrete
payload, in an environment whose delete succeeds (so the file ends up
removed). -/
theorem download_checksum_mismatch_witness :
    ((⟨true, true⟩ : DlEnv).downloadOk = true ∧
     (⟨some 1, "A.zip", "1.0.0", "u", "c", "", 5, some "sha256:00"⟩ : UpdateInfo).checksum
       = some "sha256:00" ∧
     ("sha256:00" : String) ≠ "" ∧
     Updater.verify_checksum_str (fun _ => "ff")
        (updateFs (fun _ => none)
          (dlPath ⟨some 1, "A.zip", "1.0.0", "u", "c", "", 5, some "sha256:00"⟩) (some [0]))
        (dlPath ⟨some 1, "A.zip", "1.0.0", "u", "c", "", 5, some "sha256:00"⟩)
        "sha256:00" = false) ∧
    ((Updater.download_update (fun _ => "ff") ⟨true, true⟩
        (some ⟨some 1, "A.zip", "1.0.0", "u", "c", "", 5, some "sha256:00"⟩) none
        (fun _ => none) [0]).err = some UpdErr.checksumMismatch ∧
     (Updater.download_update (fun _ => "ff") ⟨true, true⟩
        (some ⟨some 1, "A.zip", "1.0.0", "u", "c", "", 5, some "sha256:00"⟩) none
        (fun _ => none) [0]).downloaded_file = none ∧
     (Updater.download_update (fun _ => "ff") ⟨true, true⟩
        (some ⟨some 1, "A.zip", "1.0.0", "u", "c", "", 5, some "sha256:00"⟩) none
        (fun _ => none) [0]).fs
        (dlPath ⟨some 1, "A.zip", "1.0.0", "u", "c", "", 5, some "sha256:00"⟩)
       = (if (⟨true, true⟩ : DlEnv).deleteOk = true then none else some [0])) :=
  ⟨⟨rfl, rfl, by decide, by decide⟩,
   download_checksum_mismatch (fun _ => "ff") ⟨true, true⟩
     ⟨some 1, "A.zip", "1.0.0", "u", "c", "", 5, some "sha256:00"⟩ none
     (fun _ => none) [0] "sha256:00" rfl rfl (by decide) (by decide)⟩

/-- C9: every `UpdateInfo` that `check_for_updates` returns carries
`checksum = None` (updater.py line 235 hard-codes it), so when
`download_update` consumes such an info — as in the implemented
check-then-download flow, where it reads `self.update_info` — the
declared-checksum verification branch is never entered. -/
theorem check_for_updates_checksum_none (cur : Option String) (release : ReleaseData)
    (info : UpdateInfo)
    (hc : Updater.check_for_updates cur release = Except.ok (some info)) :
    info.checksum = none ∧
    ∀ (h : List Nat → String) (env : DlEnv) (fs : String → Option (List Nat))
      (payload : List Nat),
      (Updater.download_update h env none (some info) fs payload).checksumChecked = false := by
  have hnone : info.checksum = none := by
    unfold Updater.check_for_updates at hc
    dsimp only at hc
    repeat' split at hc
    all_goals first
      | exact Except.noConfusion hc
      | (injection hc with h1; exact Option.noConfusion h1)
      | (injection hc with h1; injection h1 with h2; rw [← h2])
  refine ⟨hnone, ?_⟩
  intro h env fs payload
  dsimp only [Updater.download_update]
  rw [hnone]
  cases hdl : env.downloadOk <;> rfl

/-- C9 witness: a concrete release whose check yields an `UpdateInfo`,
with the checksum branch of a subsequent download not taken. -/
theorem check_for_updates_checksum_none_witness :
    Updater.check_for_updates none
        ⟨"v1.0.0", [⟨some 1, "POS-Windows.zip", 5, "bu"⟩], "notes", "2026-01-01"⟩
      = Except.ok (some ⟨some 1, "POS-Windows.zip", "1.0.0", assetApiUrl 1,
          "notes", "2026-01-01", 5, none⟩) ∧
    (⟨some 1, "POS-Windows.zip", "1.0.0", assetApiUrl 1,
        "notes", "2026-01-01", 5, none⟩ : UpdateInfo).checksum = none ∧
    (Updater.download_update (fun _ => "") ⟨true, true⟩ none
        (some ⟨some 1, "POS-Windows.zip", "1.0.0", assetApiUrl 1,
          "notes", "2026-01-01", 5, none⟩)
        (fun _ => none) []).checksumChecked = false :=
  ⟨rfl,
   (check_for_updates_checksum_none none
     ⟨"v1.0.0", [⟨some 1, "POS-Windows.zip", 5, "bu"⟩], "notes", "2026-01-01"⟩
     ⟨some 1, "POS-Windows.zip", "1.0.0", assetApiUrl 1, "notes", "2026-01-01", 5, none⟩
     rfl).1,
   (check_for_updates_checksum_none none
     ⟨"v1.0.0", [⟨some 1, "POS-Windows.zip", 5, "bu"⟩], "notes", "2026-01-01"⟩
     ⟨some 1, "POS-Windows.zip", "1.0.0", assetApiUrl 1, "notes", "2026-01-01", 5, none⟩
     rfl).2 (fun _ => "") ⟨true, true⟩ (fun _ => none) []⟩
